import Mathlib

/-
Verification of the ShopSight analytics backend data pipeline.

Shallow embedding of:
- backend/utils/data_loader.py        (DataLoader.aggregate_sales_by_product, save/load)
- backend/scripts/download_data.py    (two-pass revenue ranking + aggregation pipeline,
                                       generate_sample_sales_for_products fallback)
- backend/services/analytics_service.py (AnalyticsService.load_data, get_sales_history)
- backend/routes/products.py          (get_product_sales endpoint)

Modelling conventions:
- `article_id` values are opaque string keys (the pandas dtype conversions
  `int(article_id)` / `astype(str)` are identity on the key space).
- calendar dates are integer day ordinals (epoch chosen so that weekday(d) = d % 7
  with Monday = 0); `t_dat`/`date` columns carry no time component in the source.
- prices and revenues are rationals (ℚ), the idealization of the decimal currency
  values the spec demands; numpy float summation is modelled exactly.
- a pandas groupby is modelled as a map over the first-occurrence deduplicated key
  list; pandas emits group keys in sorted order, a row-order difference that no
  property below depends on.
-/

set_option maxRecDepth 10000

namespace ShopSight

/-- A row of the product catalog (columns selected by `create_product_index`). -/
structure Product where
  article_id : String
  prod_name : String
  product_type_name : String
  product_group_name : String
  colour_group_name : String
  department_name : String
deriving DecidableEq

/-- A raw transaction row (columns `article_id`, `t_dat`, `price`). -/
structure Txn where
  article_id : String
  t_dat : ℤ
  price : ℚ
deriving DecidableEq

/-- A row of the persisted sales aggregate
(columns `article_id`, `date`, `total_revenue`, `avg_price`, `units_sold`). -/
structure SalesRow where
  article_id : String
  date : ℤ
  total_revenue : ℚ
  avg_price : ℚ
  units_sold : ℕ
deriving DecidableEq

/-- Group key of a transaction row: `(article_id, t_dat)`. -/
def keyOf (t : Txn) : String × ℤ := (t.article_id, t.t_dat)

/-- Group key of an aggregate row: `(article_id, date)`. -/
def rowKey (r : SalesRow) : String × ℤ := (r.article_id, r.date)

/-- The prices of the transactions belonging to one `(article_id, date)` group. -/
def priceList (txns : List Txn) (k : String × ℤ) : List ℚ :=
  (txns.filter (fun t => keyOf t = k)).map (·.price)

/-- The aggregate row emitted for group `k` by `DataLoader.aggregate_sales_by_product`:
`total_revenue = price.sum`, `avg_price = price.mean`, `units_sold = price.count`. -/
def aggRowOf (txns : List Txn) (k : String × ℤ) : SalesRow :=
  { article_id := k.1
    date := k.2
    total_revenue := (priceList txns k).sum
    avg_price := (priceList txns k).sum / ((priceList txns k).length : ℚ)
    units_sold := (priceList txns k).length }

/-- `DataLoader.aggregate_sales_by_product`: group the transactions by
`(article_id, t_dat)` and emit one row per group with sum / mean / count of `price`. -/
def aggregate_sales_by_product (txns : List Txn) : List SalesRow :=
  ((txns.map keyOf).dedup).map (aggRowOf txns)

/-- Second pass of `try_download_from_s3` (STEP 4): every batch is filtered to the
selected ids (`df[df['article_id'].isin(target_set)]`) and the surviving rows of all
batches are concatenated (`pd.concat`) before the single aggregation call. -/
def secondPassTxns (batches : List (List Txn)) (sel : List String) : List Txn :=
  (batches.map (fun b => b.filter (fun t => t.article_id ∈ sel))).flatten

/- ===== helper lemmas about the aggregation ===== -/

theorem rowKey_aggRowOf (txns : List Txn) (k : String × ℤ) :
    rowKey (aggRowOf txns k) = k := Prod.mk.eta

theorem filter_eq_singleton_of_nodup {α : Type} [DecidableEq α] {l : List α} {a : α}
    (h : l.Nodup) (ha : a ∈ l) : l.filter (fun x => x = a) = [a] := by
  induction l with
  | nil => cases ha
  | cons b l ih =>
    by_cases hba : b = a
    · subst hba
      have hb : b ∉ l := (List.nodup_cons.mp h).1
      have hfe : l.filter (fun x => x = b) = [] := by
        refine List.filter_eq_nil_iff.mpr ?_
        intro x hx
        simp only [decide_eq_true_eq]
        rintro rfl
        exact hb hx
      simp [List.filter_cons, hfe]
    · have ha2 : a ∈ l := by
        rcases List.mem_cons.mp ha with h1 | h2
        · exact absurd h1.symm hba
        · exact h2
      simp [List.filter_cons, hba, ih (List.nodup_cons.mp h).2 ha2]

theorem mem_aggregate {txns : List Txn} {r : SalesRow}
    (hr : r ∈ aggregate_sales_by_product txns) :
    ∃ k ∈ (txns.map keyOf).dedup, r = aggRowOf txns k := by
  rcases List.mem_map.mp hr with ⟨k, hk, hkr⟩
  exact ⟨k, hk, hkr.symm⟩

theorem aggregate_filter_key (txns : List Txn) (k : String × ℤ)
    (hk : k ∈ txns.map keyOf) :
    ((aggregate_sales_by_product txns).filter (fun r => rowKey r = k)).length = 1 := by
  unfold aggregate_sales_by_product
  rw [List.filter_map, List.length_map]
  have hcongr : (txns.map keyOf).dedup.filter ((fun r => decide (rowKey r = k)) ∘ aggRowOf txns)
      = (txns.map keyOf).dedup.filter (fun x => x = k) := by
    refine List.filter_congr ?_
    intro x _
    simp [Function.comp, rowKey_aggRowOf]
  rw [hcongr, filter_eq_singleton_of_nodup (List.nodup_dedup _) (List.mem_dedup.mpr hk)]
  rfl

theorem aggregate_value_at_key {txns : List Txn} {k : String × ℤ} {r : SalesRow}
    (hr : r ∈ aggregate_sales_by_product txns) (hkey : rowKey r = k) :
    r = aggRowOf txns k := by
  rcases mem_aggregate hr with ⟨k2, _, rfl⟩
  rw [rowKey_aggRowOf] at hkey
  rw [hkey]

theorem priceList_length_pos {txns : List Txn} {k : String × ℤ}
    (hk : k ∈ txns.map keyOf) : 0 < (priceList txns k).length := by
  rcases List.mem_map.mp hk with ⟨t, ht, hkt⟩
  have : t ∈ txns.filter (fun t => keyOf t = k) :=
    List.mem_filter.mpr ⟨ht, by simp [hkt]⟩
  have : t.price ∈ priceList txns k := List.mem_map.mpr ⟨t, this, rfl⟩
  exact List.length_pos.mpr (List.ne_nil_of_mem this)

/-- Every emitted aggregate row has at least one contributing transaction and
satisfies `total_revenue = avg_price * units_sold` exactly. -/
theorem agg_row_invariants (txns : List Txn) :
    ∀ r ∈ aggregate_sales_by_product txns,
      1 ≤ r.units_sold ∧ r.total_revenue = r.avg_price * (r.units_sold : ℚ) := by
  intro r hr
  rcases mem_aggregate hr with ⟨k, hk, rfl⟩
  have hpos := priceList_length_pos (List.mem_dedup.mp hk)
  refine ⟨hpos, ?_⟩
  show (priceList txns k).sum
      = (priceList txns k).sum / ((priceList txns k).length : ℚ) * ((priceList txns k).length : ℚ)
  rw [div_mul_cancel₀]
  exact_mod_cast Nat.pos_iff_ne_zero.mp hpos

theorem count_eq_length_filter_eq {α : Type} [DecidableEq α] (l : List α) (a : α) :
    l.count a = (l.filter (fun x => x = a)).length := by
  show l.countP (fun x => x == a) = _
  rw [List.countP_eq_length_filter]
  congr 1

theorem units_sum_eq_length (txns : List Txn) :
    ((aggregate_sales_by_product txns).map (·.units_sold)).sum = txns.length := by
  unfold aggregate_sales_by_product
  rw [List.map_map]
  have hlen := List.sum_map_count_dedup_eq_length (txns.map keyOf)
  simp only [List.length_map] at hlen
  rw [← hlen]
  refine congrArg List.sum (List.map_congr_left ?_)
  intro k _
  rw [count_eq_length_filter_eq, List.filter_map, List.length_map]
  show (priceList txns k).length = _
  unfold priceList
  rw [List.length_map]
  congr 1

/- ===== synthetic-data fallback generator (generate_sample_sales_for_products) ===== -/

/-- A raw generated sales record (`article_id`, `t_dat`, `price`, `units`). -/
structure RawRec where
  article_id : String
  t_dat : ℤ
  price : ℚ
  units : ℕ
deriving DecidableEq

/-- Group key of a generated record. -/
def recKey (r : RawRec) : String × ℤ := (r.article_id, r.t_dat)

/-- The aggregate row emitted for group `k` by the generator's final groupby:
`avg_price = price.mean`, `total_revenue = (price * units).sum`, `units_sold = units.sum`. -/
def sampleRowOf (recs : List RawRec) (k : String × ℤ) : SalesRow :=
  let grp := recs.filter (fun r => recKey r = k)
  { article_id := k.1
    date := k.2
    total_revenue := (grp.map (fun r => r.price * (r.units : ℚ))).sum
    avg_price := (grp.map (·.price)).sum / (grp.length : ℚ)
    units_sold := (grp.map (·.units)).sum }

/-- The generator's groupby over `(article_id, t_dat)`. -/
def sampleAgg (recs : List RawRec) : List SalesRow :=
  ((recs.map recKey).dedup).map (sampleRowOf recs)

/-- One possible outcome of the `np.random` draws consumed by the generator,
indexed by product position and day offset (one independent draw per call site). -/
structure Rng where
  baseSales : ℕ → ℕ
  basePrice : ℕ → ℚ
  trendDraw : ℕ → ℕ → ℚ
  unitsDraw : ℕ → ℕ → ℚ
  priceDraw : ℕ → ℕ → ℚ

/-- Python `int()`: truncation toward zero. -/
def pyInt (x : ℚ) : ℤ := if x < 0 then -(Int.floor (-x)) else Int.floor x

/-- Python `round(x, 2)`: round half to even at two decimal places. -/
def pyRound2 (x : ℚ) : ℚ :=
  let y := x * 100
  let n := Int.floor y
  let frac := y - (n : ℚ)
  let r : ℤ :=
    if 1/2 < frac then n + 1
    else if frac < 1/2 then n
    else if n % 2 = 0 then n else n + 1
  (r : ℚ) / 100

/-- `weekend_boost`: 1.3 on Saturday/Sunday (`weekday() in [5, 6]`), else 1. -/
def weekendBoost (d : ℤ) : ℚ := if d % 7 = 5 ∨ d % 7 = 6 then 13/10 else 1

/-- The daily loop body of `generate_sample_sales_for_products` for the product at
position `pi`: 121 days from `today - 120` to `today`, one record per day whose
computed unit count is positive. -/
def genForProduct (rng : Rng) (pi : ℕ) (today : ℤ) (aid : String) : List RawRec :=
  (List.range 121).flatMap (fun off =>
    let d : ℤ := today - 120 + off
    let trendFactor : ℚ := 1 + rng.trendDraw pi off * (off : ℚ)
    let u : ℤ := pyInt ((rng.baseSales pi : ℚ) * weekendBoost d * trendFactor * rng.unitsDraw pi off)
    if 0 < u then
      [{ article_id := aid
         t_dat := d
         price := pyRound2 (rng.basePrice pi * rng.priceDraw pi off)
         units := u.toNat }]
    else [])

/-- The record-generation loop of `generate_sample_sales_for_products`:
only the first 200 catalog products are sampled when the catalog is larger. -/
def genRecords (rng : Rng) (today : ℤ) (products : List Product) : List RawRec :=
  let sample := if 200 < products.length then products.take 200 else products
  sample.enum.flatMap (fun pr => genForProduct rng pr.1 today pr.2.article_id)

/-- `generate_sample_sales_for_products`: generate records, then aggregate by
`(article_id, t_dat)`. -/
def generate_sample_sales_for_products (rng : Rng) (today : ℤ) (products : List Product) :
    List SalesRow :=
  sampleAgg (genRecords rng today products)

/-- `create_product_index`: selects the product columns; on the typed record all
selected columns are already present, so this is the identity projection. -/
def create_product_index (articles : List Product) : List Product := articles

/-- The persistence of the no-transaction-files path of `try_download_from_s3`
(lines 203-214): the product index is saved unfiltered together with the
synthetic sales aggregate. -/
def samplePathSaved (rng : Rng) (today : ℤ) (articles : List Product) :
    List Product × List SalesRow :=
  let products := create_product_index articles
  (products, generate_sample_sales_for_products rng today products)

/- ===== lemmas about the generator ===== -/

theorem mem_sampleAgg {recs : List RawRec} {row : SalesRow}
    (hr : row ∈ sampleAgg recs) :
    ∃ k ∈ (recs.map recKey).dedup, row = sampleRowOf recs k := by
  rcases List.mem_map.mp hr with ⟨k, hk, hkr⟩
  exact ⟨k, hk, hkr.symm⟩

theorem sampleAgg_ids {recs : List RawRec} {row : SalesRow} (hr : row ∈ sampleAgg recs) :
    row.article_id ∈ recs.map (·.article_id) := by
  rcases mem_sampleAgg hr with ⟨k, hk, rfl⟩
  rcases List.mem_map.mp (List.mem_dedup.mp hk) with ⟨r, hrmem, hrk⟩
  have : r.article_id = k.1 := by rw [← hrk]; rfl
  exact List.mem_map.mpr ⟨r, hrmem, by rw [this]; rfl⟩

theorem genForProduct_fields {rng : Rng} {pi : ℕ} {today : ℤ} {aid : String} {r : RawRec}
    (hr : r ∈ genForProduct rng pi today aid) :
    r.article_id = aid ∧ 1 ≤ r.units := by
  rcases List.mem_flatMap.mp hr with ⟨off, _, hoff⟩
  dsimp only at hoff
  split at hoff
  case isTrue h =>
    rcases List.mem_singleton.mp hoff with rfl
    refine ⟨rfl, ?_⟩
    show 1 ≤ Int.toNat _
    omega
  case isFalse h => cases hoff

theorem genRecords_fields {rng : Rng} {today : ℤ} {products : List Product} {r : RawRec}
    (hr : r ∈ genRecords rng today products) :
    r.article_id ∈ ((if 200 < products.length then products.take 200 else products).map
      (·.article_id)) ∧ 1 ≤ r.units := by
  unfold genRecords at hr
  rcases List.mem_flatMap.mp hr with ⟨pr, hpr, hrp⟩
  rcases genForProduct_fields hrp with ⟨haid, hu⟩
  refine ⟨?_, hu⟩
  have hsnd : pr.2 ∈ (if 200 < products.length then products.take 200 else products) := by
    have := List.enum_map_snd (if 200 < products.length then products.take 200 else products)
    rw [← this]
    exact List.mem_map.mpr ⟨pr, hpr, rfl⟩
  exact List.mem_map.mpr ⟨pr.2, hsnd, haid.symm⟩

theorem genForProduct_keys_nodup (rng : Rng) (pi : ℕ) (today : ℤ) (aid : String) :
    ((genForProduct rng pi today aid).map recKey).Nodup := by
  unfold genForProduct
  rw [List.map_flatMap]
  rw [List.nodup_flatMap]
  constructor
  · intro off _
    dsimp only
    split
    · simp
    · simp
  · have hlt := List.pairwise_lt_range 121
    refine hlt.imp ?_
    intro a b hab
    intro x hxa hxb
    dsimp only at hxa hxb
    have hxa2 : x = (aid, today - 120 + (a : ℤ)) := by
      revert hxa
      split
      · intro hx
        rcases List.mem_map.mp hx with ⟨r, hr, hrx⟩
        rcases List.mem_singleton.mp hr with rfl
        rw [← hrx]; rfl
      · intro hx; cases hx
    have hxb2 : x = (aid, today - 120 + (b : ℤ)) := by
      revert hxb
      split
      · intro hx
        rcases List.mem_map.mp hx with ⟨r, hr, hrx⟩
        rcases List.mem_singleton.mp hr with rfl
        rw [← hrx]; rfl
      · intro hx; cases hx
    rw [hxa2] at hxb2
    have : (a : ℤ) = (b : ℤ) := by
      have := (Prod.mk.injEq _ _ _ _).mp hxb2
      omega
    omega

theorem genRecords_keys_nodup (rng : Rng) (today : ℤ) {products : List Product}
    (h : (products.map (·.article_id)).Nodup) :
    ((genRecords rng today products).map recKey).Nodup := by
  unfold genRecords
  rw [List.map_flatMap, List.nodup_flatMap]
  set sample := if 200 < products.length then products.take 200 else products with hs
  have hsample : (sample.map (·.article_id)).Nodup := by
    rw [hs]
    split
    · rw [List.map_take]
      exact h.sublist (List.take_sublist _ _)
    · exact h
  constructor
  · intro pr _
    exact genForProduct_keys_nodup rng pr.1 today pr.2.article_id
  · have hpw : sample.enum.Pairwise (fun a b => a.2.article_id ≠ b.2.article_id) := by
      have h2 : sample.Pairwise (fun a b : Product => a.article_id ≠ b.article_id) :=
        List.pairwise_map.mp hsample
      have h3 : (sample.enum.map Prod.snd).Pairwise
          (fun a b : Product => a.article_id ≠ b.article_id) := by
        rw [List.enum_map_snd]
        exact h2
      exact (List.pairwise_map' Prod.snd).mp h3
    refine hpw.imp ?_
    intro a b hab
    intro x hxa hxb
    have hfa : ∀ q ∈ (genForProduct rng a.1 today a.2.article_id).map recKey,
        q.1 = a.2.article_id := by
      intro q hq
      rcases List.mem_map.mp hq with ⟨r, hr, hrq⟩
      rw [← hrq]
      exact (genForProduct_fields hr).1
    have hfb : ∀ q ∈ (genForProduct rng b.1 today b.2.article_id).map recKey,
        q.1 = b.2.article_id := by
      intro q hq
      rcases List.mem_map.mp hq with ⟨r, hr, hrq⟩
      rw [← hrq]
      exact (genForProduct_fields hr).1
    exact hab ((hfa x hxa) ▸ (hfb x hxb))

/-- Under distinct keys, each group of the generator aggregation is a single record. -/
theorem sampleAgg_singleton {recs : List RawRec}
    (hnd : (recs.map recKey).Nodup) {k : String × ℤ} (hk : k ∈ (recs.map recKey).dedup) :
    ∃ r ∈ recs, recKey r = k ∧ recs.filter (fun r => recKey r = k) = [r] := by
  have hfk : (recs.map recKey).filter (fun x => x = k) = [k] :=
    filter_eq_singleton_of_nodup hnd (List.mem_dedup.mp hk)
  rw [List.filter_map] at hfk
  have hlen : (recs.filter ((fun x => decide (x = k)) ∘ recKey)).length = 1 := by
    have := congrArg List.length hfk
    rw [List.length_map] at this
    exact this
  rcases List.length_eq_one.mp hlen with ⟨r, hr⟩
  have hrmem : r ∈ recs.filter ((fun x => decide (x = k)) ∘ recKey) := by
    rw [hr]; exact List.mem_singleton_self r
  have hrmem2 := List.mem_filter.mp hrmem
  refine ⟨r, hrmem2.1, by simpa using hrmem2.2, ?_⟩
  have : recs.filter (fun r => recKey r = k) = recs.filter ((fun x => decide (x = k)) ∘ recKey) := by
    rfl
  rw [this, hr]

/-- Row invariants for the generator output: every group is one record with
`units ≥ 1`, hence `units_sold ≥ 1` and `total_revenue = avg_price * units_sold`. -/
theorem sample_row_invariants (rng : Rng) (today : ℤ) (products : List Product)
    (h : (products.map (·.article_id)).Nodup) :
    ∀ row ∈ generate_sample_sales_for_products rng today products,
      1 ≤ row.units_sold ∧ row.total_revenue = row.avg_price * (row.units_sold : ℚ) := by
  intro row hrow
  rcases mem_sampleAgg hrow with ⟨k, hk, rfl⟩
  have hnd := genRecords_keys_nodup rng today h
  rcases sampleAgg_singleton hnd hk with ⟨r, hrmem, _, hsingle⟩
  have hu : 1 ≤ r.units := (genRecords_fields hrmem).2
  unfold sampleRowOf
  rw [hsingle]
  constructor
  · simpa using hu
  · show r.price * (r.units : ℚ) + 0 = (r.price + 0) / ((1 : ℕ) : ℚ) * ((r.units + 0 : ℕ) : ℚ)
    push_cast
    ring

/- ===== Revenue Ranker (STEP 1-3 of try_download_from_s3) ===== -/

/-- First pass: the accumulated revenue of one article over all batches
(`product_revenue[int(article_id)] += grouped revenue of the batch`). -/
def productRevenue (batches : List (List Txn)) (a : String) : ℚ :=
  batches.foldl
    (fun acc b => acc + ((b.filter (fun t => t.article_id = a)).map (·.price)).sum) 0

/-- The distinct article ids encountered across all batches
(the key set of the `product_revenue` accumulator). -/
def txnIds (batches : List (List Txn)) : List String :=
  (batches.flatten.map (·.article_id)).dedup

/-- A row of `products_with_revenue`: a catalog product joined with its revenue. -/
structure Cand where
  product : Product
  revenue : ℚ
deriving DecidableEq

/-- STEP 2: `products_df.merge(revenue_df, on='article_id', how='inner')` —
catalog rows with at least one transaction, in catalog order, with their revenue. -/
def productsWithRevenue (products : List Product) (batches : List (List Txn)) : List Cand :=
  (products.filter (fun p => p.article_id ∈ txnIds batches)).map
    (fun p => { product := p, revenue := productRevenue batches p.article_id })

/-- Row order used by `nlargest(..., 'revenue')`: revenue descending, ties kept in
input row order (pandas `keep='first'`). -/
def candOrd (a b : Cand) : Prop := b.revenue ≤ a.revenue

instance : DecidableRel candOrd := fun a b =>
  inferInstanceAs (Decidable (b.revenue ≤ a.revenue))

instance : IsTotal Cand candOrd :=
  ⟨fun a b => le_total b.revenue a.revenue⟩

instance : IsTrans Cand candOrd :=
  ⟨fun _ _ _ hab hbc => le_trans hbc hab⟩

/-- `group.nlargest(quota, 'revenue')`: the first `quota` rows of the stable
descending sort by revenue. -/
def categoryTop (quota : ℕ) (g : List Cand) : List Cand :=
  (List.insertionSort candOrd g).take quota

/-- The category keys of `groupby('product_type_name')`, in pandas sorted order. -/
def catKeys (cands : List Cand) : List String :=
  List.insertionSort (fun a b : String => a ≤ b)
    ((cands.map (·.product.product_type_name)).dedup)

/-- STEP 3: per-category quota selection — for each category in groupby order,
the ids of the top `quota` candidates by revenue. -/
def quotaSel (quota : ℕ) (cands : List Cand) : List String :=
  ((catKeys cands).map (fun c =>
    (categoryTop quota (cands.filter (fun x => x.product.product_type_name = c))).map
      (fun x => x.product.article_id))).flatten

/-- The top-up step: when the quota union is below `target`, extend with the
next-highest-revenue candidates overall, drawn from `nlargest(target + 50)`,
excluding already-selected ids, capped at the missing count. -/
def topUp (target : ℕ) (cands : List Cand) (sel0 : List String) : List String :=
  if sel0.length < target then
    sel0 ++
      (((((List.insertionSort candOrd cands).take (target + 50)).filter
          (fun c => c.product.article_id ∉ sel0)).map
        (fun c => c.product.article_id)).take (target - sel0.length))
  else sel0

/-- The full Revenue Ranker: quota selection, top-up, truncation to `target`. -/
def rank (batches : List (List Txn)) (products : List Product) (target quota : ℕ) :
    List String :=
  (topUp target (productsWithRevenue products batches)
    (quotaSel quota (productsWithRevenue products batches))).take target

/-- Modelled from the spec: the candidate order "revenue (descending; ties broken
by `article_id` ascending for determinism)" that the spec prescribes for the
per-category selection. -/
def specOrd (a b : Cand) : Prop :=
  b.revenue < a.revenue ∨ (a.revenue = b.revenue ∧ a.product.article_id ≤ b.product.article_id)

instance : DecidableRel specOrd := fun a b => by
  unfold specOrd
  infer_instance

/-- Modelled from the spec: per-category top-`quota` selection under `specOrd`. -/
def categoryTopSpecOrder (quota : ℕ) (g : List Cand) : List Cand :=
  (List.insertionSort specOrd g).take quota

/- ===== persistence paths ===== -/

/-- The persistence of the real pipeline path of `try_download_from_s3`
(STEP 1-4 plus the consistency filter of lines 337-341): rank, aggregate the
selected transactions, then restrict the catalog to the article ids present in
the sales aggregate before saving both tables. -/
def mainPathSaved (batches : List (List Txn)) (articles : List Product)
    (target quota : ℕ) : List Product × List SalesRow :=
  let products := create_product_index articles
  let sel := rank batches products target quota
  let sales := aggregate_sales_by_product (secondPassTxns batches sel)
  let withSales := (sales.map (·.article_id)).dedup
  (products.filter (fun p => p.article_id ∈ withSales), sales)

/- ===== lemmas about the ranker ===== -/

theorem categoryTop_subset {quota : ℕ} {g : List Cand} : ∀ x ∈ categoryTop quota g, x ∈ g := by
  intro x hx
  have hx2 : x ∈ List.insertionSort candOrd g := List.mem_of_mem_take hx
  exact (List.perm_insertionSort candOrd g).mem_iff.mp hx2

theorem mem_quotaSel {quota : ℕ} {cands : List Cand} {a : String}
    (ha : a ∈ quotaSel quota cands) : ∃ x ∈ cands, x.product.article_id = a := by
  unfold quotaSel at ha
  rcases List.mem_flatten.mp ha with ⟨piece, hpiece, hap⟩
  rcases List.mem_map.mp hpiece with ⟨c, _, hcp⟩
  rw [← hcp] at hap
  rcases List.mem_map.mp hap with ⟨x, hx, hxa⟩
  have := categoryTop_subset x hx
  exact ⟨x, (List.mem_filter.mp this).1, hxa⟩

theorem mem_rank {batches : List (List Txn)} {products : List Product}
    {target quota : ℕ} {a : String} (ha : a ∈ rank batches products target quota) :
    ∃ x ∈ productsWithRevenue products batches, x.product.article_id = a := by
  unfold rank topUp at ha
  have ha2 := List.mem_of_mem_take ha
  by_cases hlt : (quotaSel quota (productsWithRevenue products batches)).length < target
  · rw [if_pos hlt] at ha2
    rcases List.mem_append.mp ha2 with h1 | h2
    · exact mem_quotaSel h1
    · have h3 := List.mem_of_mem_take h2
      rcases List.mem_map.mp h3 with ⟨x, hx, hxa⟩
      have hx2 : x ∈ (List.insertionSort candOrd (productsWithRevenue products batches)).take
          (target + 50) := (List.mem_filter.mp hx).1
      have hx3 := List.mem_of_mem_take hx2
      exact ⟨x, (List.perm_insertionSort candOrd _).mem_iff.mp hx3, hxa⟩
  · rw [if_neg hlt] at ha2
    exact mem_quotaSel ha2

theorem mem_productsWithRevenue {products : List Product} {batches : List (List Txn)}
    {x : Cand} (hx : x ∈ productsWithRevenue products batches) :
    x.product ∈ products ∧ x.product.article_id ∈ txnIds batches := by
  rcases List.mem_map.mp hx with ⟨p, hp, hpx⟩
  have hmem := List.mem_filter.mp hp
  rw [← hpx]
  exact ⟨hmem.1, by simpa using hmem.2⟩

/- ===== stability of the nlargest order ===== -/

theorem filter_orderedInsert_rev (v : ℚ) (x : Cand) (l : List Cand) :
    (List.orderedInsert candOrd x l).filter (fun c => c.revenue = v)
      = if x.revenue = v then x :: l.filter (fun c => c.revenue = v)
        else l.filter (fun c => c.revenue = v) := by
  induction l with
  | nil =>
    by_cases hxv : x.revenue = v <;> simp [List.orderedInsert, List.filter_cons, hxv]
  | cons y ys ih =>
    rw [List.orderedInsert]
    by_cases h : candOrd x y
    · rw [if_pos h]
      by_cases hxv : x.revenue = v <;> simp [List.filter_cons, hxv]
    · rw [if_neg h]
      have hlt : x.revenue < y.revenue := not_le.mp h
      by_cases hxv : x.revenue = v
      · have hyv : y.revenue ≠ v := by
          rw [← hxv]
          exact ne_of_gt hlt
        simp [List.filter_cons, hxv, hyv, ih]
      · simp [List.filter_cons, hxv, ih]

theorem filter_insertionSort_rev (v : ℚ) (l : List Cand) :
    (List.insertionSort candOrd l).filter (fun c => c.revenue = v)
      = l.filter (fun c => c.revenue = v) := by
  induction l with
  | nil => rfl
  | cons x xs ih =>
    rw [List.insertionSort, filter_orderedInsert_rev, ih, List.filter_cons]
    by_cases hxv : x.revenue = v <;> simp [hxv]

/- ===== nodup facts for the selection ===== -/

theorem candIds_nodup {products : List Product} {batches : List (List Txn)}
    (h : (products.map (·.article_id)).Nodup) :
    ((productsWithRevenue products batches).map (·.product.article_id)).Nodup := by
  unfold productsWithRevenue
  rw [List.map_map]
  have hcomp : ((fun c : Cand => c.product.article_id) ∘
      (fun p : Product => { product := p, revenue := productRevenue batches p.article_id }))
      = fun p : Product => p.article_id := rfl
  rw [hcomp]
  exact h.sublist ((List.filter_sublist _).map _)

theorem catKeys_nodup (cands : List Cand) : (catKeys cands).Nodup :=
  ((List.perm_insertionSort _ _).nodup_iff).mpr (List.nodup_dedup _)

theorem categoryTop_ids_nodup {quota : ℕ} {g : List Cand}
    (h : (g.map (·.product.article_id)).Nodup) :
    ((categoryTop quota g).map (·.product.article_id)).Nodup := by
  unfold categoryTop
  have hperm : List.Perm ((List.insertionSort candOrd g).map (·.product.article_id))
      (g.map (·.product.article_id)) := (List.perm_insertionSort candOrd g).map _
  exact (hperm.nodup_iff.mpr h).sublist ((List.take_sublist _ _).map _)

theorem quotaSel_nodup {quota : ℕ} {cands : List Cand}
    (h : (cands.map (·.product.article_id)).Nodup) :
    (quotaSel quota cands).Nodup := by
  unfold quotaSel
  rw [List.nodup_flatten]
  constructor
  · intro piece hpiece
    rcases List.mem_map.mp hpiece with ⟨c, _, hcp⟩
    rw [← hcp]
    exact categoryTop_ids_nodup (h.sublist ((List.filter_sublist _).map _))
  · have hpw : (catKeys cands).Pairwise Ne := catKeys_nodup cands
    refine List.pairwise_map.mpr (hpw.imp ?_)
    intro c c' hne a hac hac2
    rcases List.mem_map.mp hac with ⟨x, hx, hxa⟩
    rcases List.mem_map.mp hac2 with ⟨y, hy, hya⟩
    have hx2 := categoryTop_subset x hx
    have hy2 := categoryTop_subset y hy
    have hxc : x.product.product_type_name = c := by
      simpa using (List.mem_filter.mp hx2).2
    have hyc : y.product.product_type_name = c' := by
      simpa using (List.mem_filter.mp hy2).2
    have hxy : x = y :=
      List.inj_on_of_nodup_map h (List.mem_filter.mp hx2).1 (List.mem_filter.mp hy2).1
        (by rw [hxa, hya])
    refine hne ?_
    rw [← hxc, ← hyc, hxy]

theorem quotaSel_subset {quota : ℕ} {cands : List Cand} :
    ∀ a ∈ quotaSel quota cands, a ∈ cands.map (·.product.article_id) := by
  intro a ha
  rcases mem_quotaSel ha with ⟨x, hx, hxa⟩
  exact List.mem_map.mpr ⟨x, hx, hxa⟩

/- ===== the top-up length computation ===== -/

theorem length_filter_split {α : Type} (l : List α) (p : α → Bool) :
    (l.filter p).length + (l.filter (fun a => ! p a)).length = l.length := by
  induction l with
  | nil => rfl
  | cons x l ih =>
    rw [List.filter_cons, List.filter_cons]
    cases hp : p x <;> simp only [hp, Bool.not_false, Bool.not_true, if_true, if_false,
      cond_true, cond_false] <;> simp <;> omega

theorem topUp_take_length {cands : List Cand} {sel0 : List String} {target : ℕ}
    (hcnd : (cands.map (·.product.article_id)).Nodup)
    (hsel_nd : sel0.Nodup)
    (hsel_sub : ∀ a ∈ sel0, a ∈ cands.map (·.product.article_id))
    (hlt : sel0.length < target) :
    ((topUp target cands sel0).take target).length = min target cands.length := by
  classical
  set sorted := List.insertionSort candOrd cands with hsorted
  set allTop := sorted.take (target + 50) with hallTop
  have hsortedIds : List.Perm (sorted.map (·.product.article_id))
      (cands.map (·.product.article_id)) := (List.perm_insertionSort candOrd cands).map _
  have hsortedIdsNd : (sorted.map (·.product.article_id)).Nodup :=
    hsortedIds.nodup_iff.mpr hcnd
  have hallTopIdsNd : (allTop.map (·.product.article_id)).Nodup :=
    hsortedIdsNd.sublist ((List.take_sublist _ _).map _)
  have hallTopLen : allTop.length = min (target + 50) cands.length := by
    rw [hallTop, List.length_take, hsorted, List.length_insertionSort]
  set keep := allTop.filter (fun c => c.product.article_id ∈ sel0) with hkeep
  set addl := allTop.filter (fun c => c.product.article_id ∉ sel0) with haddl
  have hsplit : keep.length + addl.length = allTop.length := by
    rw [hkeep, haddl]
    have := length_filter_split allTop (fun c => decide (c.product.article_id ∈ sel0))
    rw [← this]
    congr 1
    refine congrArg List.length (List.filter_congr ?_)
    intro c _
    simp [decide_not]
  have hkeepLe : keep.length ≤ sel0.length := by
    have hnd2 : (keep.map (·.product.article_id)).Nodup :=
      hallTopIdsNd.sublist ((List.filter_sublist _).map _)
    have hsub : (keep.map (·.product.article_id)) ⊆ sel0 := by
      intro a ha
      rcases List.mem_map.mp ha with ⟨c, hc, hca⟩
      have := (List.mem_filter.mp hc).2
      rw [← hca]
      simpa using this
    have := (hnd2.subperm hsub).length_le
    rw [List.length_map] at this
    exact this
  have hfinal : ((topUp target cands sel0).take target).length
      = min target (sel0.length + min (target - sel0.length) addl.length) := by
    rw [topUp, if_pos hlt, List.length_take, List.length_append, List.length_take,
      List.length_map]
  rcases le_or_lt target cands.length with hNge | hNlt
  · -- enough candidates: the top-up fills to exactly target
    have h50 : target ≤ allTop.length := by omega
    have haddlGe : target - sel0.length ≤ addl.length := by omega
    rw [hfinal]
    omega
  · -- fewer candidates than target: everything gets selected
    have hTake : allTop = sorted := by
      rw [hallTop]
      refine List.take_of_length_le ?_
      rw [hsorted, List.length_insertionSort]
      omega
    have hkeepGe : sel0.length ≤ keep.length := by
      have hsub : sel0 ⊆ keep.map (·.product.article_id) := by
        intro a ha
        rcases List.mem_map.mp (hsel_sub a ha) with ⟨x, hx, hxa⟩
        have hxs : x ∈ allTop := by
          rw [hTake]
          exact (List.perm_insertionSort candOrd cands).mem_iff.mpr hx
        have hxk : x ∈ keep := by
          rw [hkeep]
          refine List.mem_filter.mpr ⟨hxs, ?_⟩
          simp only [decide_eq_true_eq]
          rw [hxa]
          exact ha
        exact List.mem_map.mpr ⟨x, hxk, hxa⟩
      have := (hsel_nd.subperm hsub).length_le
      rw [List.length_map] at this
      exact this
    have hallN : allTop.length = cands.length := by omega
    rw [hfinal]
    omega

/- ===== AnalyticsService and the products route ===== -/

/-- One entry of the `data` list returned by `get_sales_history`
(`date`, `revenue`, `units_sold`). -/
structure DataPoint where
  date : ℤ
  revenue : ℚ
  units_sold : ℕ
deriving DecidableEq

/-- The dictionary returned by `AnalyticsService.get_sales_history`. -/
structure SalesHistory where
  article_id : String
  product_name : String
  data : List DataPoint
  total_revenue : ℚ
  total_units : ℕ
deriving DecidableEq

/-- `AnalyticsService.load_data`: when both parquet files exist their contents are
loaded, otherwise (or on a read error, which is caught) the service holds empty
products and sales tables; the method never raises. -/
def load_data (store : Option (List Product × List SalesRow)) :
    List Product × List SalesRow :=
  match store with
  | some t => t
  | none => ([], [])

/-- A load failure condition. -/
inductive LoadError
  | notFound
deriving DecidableEq

/-- Modelled from the spec: `loadProducts() / loadSales()` "fail with a `NotFound`
condition if the pipeline has never successfully run" (`load(name) -> table | NotFound`). -/
def loadTablesSpec (store : Option (List Product × List SalesRow)) :
    Except LoadError (List Product × List SalesRow) :=
  match store with
  | some t => Except.ok t
  | none => Except.error LoadError.notFound

/-- `AnalyticsService.get_product_by_id`: first catalog row whose `article_id`
matches, if any. -/
def get_product_by_id (products : List Product) (aid : String) : Option Product :=
  products.find? (fun p => p.article_id = aid)

/-- `product_sales['date'].max()` on a nonempty frame (0 is never used: the
function below only evaluates this on a nonempty list). -/
def maxDate : List SalesRow → ℤ
  | [] => 0
  | r :: rs => rs.foldl (fun m x => max m x.date) r.date

/-- Ascending date order used by `sort_values('date')`. -/
def dateOrd (a b : SalesRow) : Prop := a.date ≤ b.date

instance : DecidableRel dateOrd := fun a b =>
  inferInstanceAs (Decidable (a.date ≤ b.date))

instance : IsTotal SalesRow dateOrd := ⟨fun a b => le_total a.date b.date⟩

instance : IsTrans SalesRow dateOrd := ⟨fun _ _ _ hab hbc => le_trans hab hbc⟩

/-- The projection of a sales row to a response data point. -/
def toPoint (r : SalesRow) : DataPoint :=
  { date := r.date, revenue := r.total_revenue, units_sold := r.units_sold }

/-- The empty response returned on the two early-exit branches. -/
def emptyHistory (aid name : String) : SalesHistory :=
  { article_id := aid, product_name := name, data := [], total_revenue := 0, total_units := 0 }

/-- `AnalyticsService.get_sales_history`: filter to the product, window the last
`days` days anchored at the product's most recent sale date, sort ascending by
date, and total revenue/units over the windowed rows. -/
def get_sales_history (products : List Product) (sales : List SalesRow)
    (aid : String) (days : ℤ) : SalesHistory :=
  if sales.isEmpty then emptyHistory aid "Unknown"
  else
    let productName :=
      match get_product_by_id products aid with
      | some p => p.prod_name
      | none => "Unknown Product"
    let productSales := sales.filter (fun r => r.article_id = aid)
    if productSales.isEmpty then emptyHistory aid productName
    else
      let endDate := maxDate productSales
      let startDate := endDate - days
      let windowed := productSales.filter (fun r => startDate ≤ r.date)
      { article_id := aid
        product_name := productName
        data := (List.insertionSort dateOrd windowed).map toPoint
        total_revenue := (windowed.map (·.total_revenue)).sum
        total_units := (windowed.map (·.units_sold)).sum }

/-- An HTTP error response. -/
structure HTTPError where
  status : ℕ
  detail : String
deriving DecidableEq

/-- The 404 response of the sales route. -/
def err404 : HTTPError :=
  { status := 404, detail := "Product not found or no sales data available" }

/-- The `GET /products/{article_id}/sales` route: 404 when the history has no
data points, otherwise the history. -/
def get_product_sales (tables : List Product × List SalesRow) (aid : String)
    (days : ℤ) : Except HTTPError SalesHistory :=
  let sd := get_sales_history tables.1 tables.2 aid days
  if sd.data.isEmpty then Except.error err404
  else Except.ok sd

/- ===== additional bridging lemmas ===== -/

theorem agg_ids_subset {txns : List Txn} {row : SalesRow}
    (hr : row ∈ aggregate_sales_by_product txns) :
    row.article_id ∈ txns.map (·.article_id) := by
  rcases mem_aggregate hr with ⟨k, hk, rfl⟩
  rcases List.mem_map.mp (List.mem_dedup.mp hk) with ⟨t, htmem, htk⟩
  have : t.article_id = k.1 := by rw [← htk]; rfl
  exact List.mem_map.mpr ⟨t, htmem, this⟩

theorem secondPass_sel {batches : List (List Txn)} {sel : List String} {t : Txn}
    (ht : t ∈ secondPassTxns batches sel) : t.article_id ∈ sel := by
  unfold secondPassTxns at ht
  rcases List.mem_flatten.mp ht with ⟨piece, hpiece, htp⟩
  rcases List.mem_map.mp hpiece with ⟨b, _, hbp⟩
  rw [← hbp] at htp
  simpa using (List.mem_filter.mp htp).2

/- ===== scenario data ===== -/

/-- A transaction for article 0108775001 on the scenario date (day ordinal 0 stands
for 2024-01-01). -/
def scenTxn (p : ℚ) : Txn := { article_id := "0108775001", t_dat := 0, price := p }

/-- The scenario transactions split across two batches. -/
def scenBatches : List (List Txn) := [[scenTxn 10], [scenTxn 10, scenTxn 12]]

/-- The scenario selected-id set. -/
def scenSel : List String := ["0108775001"]

/-- A deterministic admissible outcome of the generator's random draws
(`randint(5,30) = 5`, `uniform(20,150) = 20`, `uniform(-0.002,0.003) = 0`,
`uniform(0.7,1.3) = 1`, `uniform(0.95,1.05) = 1`). -/
def rng0 : Rng :=
  { baseSales := fun _ => 5
    basePrice := fun _ => 20
    trendDraw := fun _ _ => 0
    unitsDraw := fun _ _ => 1
    priceDraw := fun _ _ => 1 }

/-- A sample catalog product. -/
def prodA : Product :=
  { article_id := "0108775001", prod_name := "Running Shoes",
    product_type_name := "Shoes", product_group_name := "Footwear",
    colour_group_name := "Black", department_name := "Sport" }

/- ===== claims ===== -/

/-- C1: for every multiset of transaction rows filtered to the selected-id set and
split across batches, the aggregate output has exactly one row per distinct
`(article_id, date)` key among those rows, with `total_revenue` the sum,
`avg_price` the mean, and `units_sold` the count of the prices for that key,
combined across all contributing batches. -/
theorem C1_aggregate_merges_batches (batches : List (List Txn)) (sel : List String)
    (k : String × ℤ) (hk : k ∈ (secondPassTxns batches sel).map keyOf) :
    ((aggregate_sales_by_product (secondPassTxns batches sel)).filter
        (fun r => rowKey r = k)).length = 1 ∧
    ∀ r ∈ aggregate_sales_by_product (secondPassTxns batches sel), rowKey r = k →
      r.total_revenue = (priceList (secondPassTxns batches sel) k).sum ∧
      r.avg_price = (priceList (secondPassTxns batches sel) k).sum
        / ((priceList (secondPassTxns batches sel) k).length : ℚ) ∧
      r.units_sold = (priceList (secondPassTxns batches sel) k).length := by
  refine ⟨aggregate_filter_key _ _ hk, ?_⟩
  intro r hr hkey
  rw [aggregate_value_at_key hr hkey]
  exact ⟨rfl, rfl, rfl⟩

/-- Witness for C1: 3 transactions for article 0108775001 on one day at prices
10.00, 10.00, 12.00, split across two batches, yield the single row
`(total_revenue = 32.00, avg_price = 32/3 = 10.666..., units_sold = 3)`. -/
theorem C1_witness :
    (("0108775001", (0:ℤ)) ∈ (secondPassTxns scenBatches scenSel).map keyOf) ∧
    (((aggregate_sales_by_product (secondPassTxns scenBatches scenSel)).filter
        (fun r => rowKey r = ("0108775001", (0:ℤ)))).length = 1 ∧
      ∀ r ∈ aggregate_sales_by_product (secondPassTxns scenBatches scenSel),
        rowKey r = ("0108775001", (0:ℤ)) →
        r.total_revenue = (priceList (secondPassTxns scenBatches scenSel)
            ("0108775001", (0:ℤ))).sum ∧
        r.avg_price = (priceList (secondPassTxns scenBatches scenSel)
            ("0108775001", (0:ℤ))).sum
          / ((priceList (secondPassTxns scenBatches scenSel) ("0108775001", (0:ℤ))).length : ℚ) ∧
        r.units_sold = (priceList (secondPassTxns scenBatches scenSel)
            ("0108775001", (0:ℤ))).length) ∧
    aggregate_sales_by_product (secondPassTxns scenBatches scenSel)
      = [{ article_id := "0108775001", date := 0, total_revenue := 32,
           avg_price := 32/3, units_sold := 3 }] := by
  have hk : ("0108775001", (0:ℤ)) ∈ (secondPassTxns scenBatches scenSel).map keyOf := by
    decide
  refine ⟨hk, C1_aggregate_merges_batches scenBatches scenSel _ hk, ?_⟩
  have hded : ((secondPassTxns scenBatches scenSel).map keyOf).dedup
      = [("0108775001", (0:ℤ))] := by decide
  have hpl : priceList (secondPassTxns scenBatches scenSel) ("0108775001", (0:ℤ))
      = [10, 10, 12] := by decide
  rw [aggregate_sales_by_product, hded, List.map_singleton]
  rw [aggRowOf, hpl]
  norm_num

/-- C3: for every persisted sales aggregate row, on the real pipeline path and on
the synthetic fallback path, `units_sold ≥ 1` and
`total_revenue = avg_price × units_sold` (exactly, in the rational model). -/
theorem C3_sales_row_invariants (txns : List Txn) (rng : Rng) (today : ℤ)
    (products : List Product) (h : (products.map (·.article_id)).Nodup) :
    (∀ r ∈ aggregate_sales_by_product txns,
        1 ≤ r.units_sold ∧ r.total_revenue = r.avg_price * (r.units_sold : ℚ)) ∧
    (∀ r ∈ generate_sample_sales_for_products rng today products,
        1 ≤ r.units_sold ∧ r.total_revenue = r.avg_price * (r.units_sold : ℚ)) :=
  ⟨agg_row_invariants txns, sample_row_invariants rng today products h⟩

/-- Witness for C3 at a concrete transaction list, rng outcome and catalog. -/
theorem C3_witness :
    (([prodA].map (·.article_id)).Nodup) ∧
    ((∀ r ∈ aggregate_sales_by_product [scenTxn 10],
        1 ≤ r.units_sold ∧ r.total_revenue = r.avg_price * (r.units_sold : ℚ)) ∧
      (∀ r ∈ generate_sample_sales_for_products rng0 120 [prodA],
        1 ≤ r.units_sold ∧ r.total_revenue = r.avg_price * (r.units_sold : ℚ))) :=
  ⟨by decide, C3_sales_row_invariants [scenTxn 10] rng0 120 [prodA] (by decide)⟩

/-- C9: the sum of `units_sold` over the aggregate output equals the number of
transaction rows that survive the selected-id filter, for every batch list and
selected-id set. -/
theorem C9_units_sum_eq_row_count (batches : List (List Txn)) (sel : List String) :
    ((aggregate_sales_by_product (secondPassTxns batches sel)).map (·.units_sold)).sum
      = (secondPassTxns batches sel).length :=
  units_sum_eq_length _

/-- C7 (code divergence): the synthetic generator's persisted aggregate is a plain
sales table with the same fields and no provenance marker; at a concrete input the
real aggregation of two 25.00 transactions and the synthetic aggregation of one
generated record (price 25.00, units 2) produce literally equal persisted rows. -/
theorem C7_synthetic_indistinguishable :
    aggregate_sales_by_product
        [{ article_id := "0108775001", t_dat := 0, price := 25 },
         { article_id := "0108775001", t_dat := 0, price := 25 }]
      = sampleAgg [{ article_id := "0108775001", t_dat := 0, price := 25, units := 2 }] := by
  have h1 : (([{ article_id := "0108775001", t_dat := 0, price := 25 },
      { article_id := "0108775001", t_dat := 0, price := 25 }] : List Txn).map keyOf).dedup
      = [("0108775001", (0:ℤ))] := by decide
  have h2 : (([{ article_id := "0108775001", t_dat := 0, price := 25, units := 2 }] :
      List RawRec).map recKey).dedup = [("0108775001", (0:ℤ))] := by decide
  rw [aggregate_sales_by_product, sampleAgg, h1, h2, List.map_singleton, List.map_singleton]
  rw [aggRowOf, sampleRowOf]
  have hpl : priceList
      [{ article_id := "0108775001", t_dat := 0, price := 25 },
       { article_id := "0108775001", t_dat := 0, price := 25 }] ("0108775001", (0:ℤ))
      = [25, 25] := by decide
  have hgrp : ([{ article_id := "0108775001", t_dat := 0, price := 25, units := 2 }] :
      List RawRec).filter (fun r => recKey r = ("0108775001", (0:ℤ)))
      = [{ article_id := "0108775001", t_dat := 0, price := 25, units := 2 }] := by decide
  rw [hpl, hgrp]
  norm_num

/-- C8 counterexample: when no persisted tables exist, `load_data` does not fail
with a NotFound condition — it returns (empty) tables, unlike the spec-modelled
load contract. -/
theorem C8_counterexample_load_returns_empty :
    load_data none = ([], []) ∧
    loadTablesSpec none = Except.error LoadError.notFound :=
  ⟨rfl, rfl⟩

/-- C8 (amended): when the pipeline has never run, `load_data` yields empty
products and sales tables (not a failure), and the sales query endpoint answers
404 not-found (never a crash) whenever the loaded sales table has no row for the
requested article id — in particular on the empty tables. -/
theorem C8_empty_tables_and_404 :
    load_data none = (([] : List Product), ([] : List SalesRow)) ∧
    ∀ (tables : List Product × List SalesRow) (aid : String) (days : ℤ),
      tables.2.filter (fun r => r.article_id = aid) = [] →
      get_product_sales tables aid days = Except.error err404 := by
  refine ⟨rfl, ?_⟩
  intro tables aid days hf
  have hdata : (get_sales_history tables.1 tables.2 aid days).data = [] := by
    unfold get_sales_history
    cases hs : tables.2.isEmpty
    · rw [if_neg (by simp [hs])]
      dsimp only
      rw [hf]
      rw [if_pos (by rfl)]
      rfl
    · rw [if_pos (by simp [hs])]
      rfl
  unfold get_product_sales
  rw [if_pos (by simp [hdata])]

/-- Witness for C8 (amended) at the never-run state and a concrete request. -/
theorem C8_witness :
    ((([] : List Product), ([] : List SalesRow)).2.filter
        (fun r => r.article_id = "0108775001") = []) ∧
    load_data none = (([] : List Product), ([] : List SalesRow)) ∧
    get_product_sales ([], []) "0108775001" 90 = Except.error err404 :=
  ⟨rfl, C8_empty_tables_and_404.1, C8_empty_tables_and_404.2 ([], []) "0108775001" 90 rfl⟩

/-- C2 (amended): on the real pipeline path, after the consistency filter an
article id is in the persisted products table iff it has at least one row in the
persisted sales table. (The sample-data fallback path persists the catalog
unfiltered; see the counterexample.) -/
theorem C2_main_path_products_iff_sales (batches : List (List Txn))
    (articles : List Product) (target quota : ℕ) (a : String) :
    (a ∈ (mainPathSaved batches articles target quota).1.map (·.article_id)) ↔
    (a ∈ (mainPathSaved batches articles target quota).2.map (·.article_id)) := by
  unfold mainPathSaved
  dsimp only
  constructor
  · intro h1
    rcases List.mem_map.mp h1 with ⟨p, hp, hpa⟩
    have h2 := (List.mem_filter.mp hp).2
    simp only [decide_eq_true_eq] at h2
    rw [← hpa]
    exact List.mem_dedup.mp h2
  · intro h2
    rcases List.mem_map.mp h2 with ⟨row, hrow, hra⟩
    rcases mem_aggregate hrow with ⟨k, hk, hrowk⟩
    rcases List.mem_map.mp (List.mem_dedup.mp hk) with ⟨t, htmem, htk⟩
    have hta : t.article_id = row.article_id := by
      rw [hrowk, ← htk]
      rfl
    have hsel : t.article_id ∈ rank batches (create_product_index articles) target quota :=
      secondPass_sel htmem
    rcases mem_rank hsel with ⟨x, hx, hxa⟩
    have hxprod := (mem_productsWithRevenue hx).1
    refine List.mem_map.mpr ⟨x.product, ?_, by rw [hxa, hta, hra]⟩
    refine List.mem_filter.mpr ⟨hxprod, ?_⟩
    simp only [decide_eq_true_eq]
    refine List.mem_dedup.mpr ?_
    rw [hxa, hta, hra]
    exact h2

/-- A catalog product used in counterexamples: id `i` rendered as a decimal string. -/
def mkCatProduct (i : ℕ) : Product :=
  { article_id := toString i, prod_name := "p", product_type_name := "t",
    product_group_name := "g", colour_group_name := "c", department_name := "d" }

/-- A 201-product catalog. -/
def cat201 : List Product := (List.range 201).map mkCatProduct

/-- C2 counterexample: on the no-transaction-files path the catalog is persisted
unfiltered while synthetic sales are generated for the first 200 products only,
so product 200 is in the saved products table with no row in the saved sales
table — for every admissible random outcome; `rng0` is one such outcome. -/
theorem C2_counterexample_sample_path :
    ("200" ∈ (samplePathSaved rng0 120 cat201).1.map (·.article_id)) ∧
    ("200" ∉ (samplePathSaved rng0 120 cat201).2.map (·.article_id)) := by
  constructor
  · show "200" ∈ (create_product_index cat201).map (·.article_id)
    refine List.mem_map.mpr ⟨mkCatProduct 200, ?_, rfl⟩
    exact List.mem_map.mpr ⟨200, List.mem_range.mpr (by norm_num), rfl⟩
  · intro hmem
    rcases List.mem_map.mp hmem with ⟨row, hrow, hra⟩
    have h1 := sampleAgg_ids hrow
    rcases List.mem_map.mp h1 with ⟨r, hr, hr2⟩
    have h2 := (genRecords_fields hr).1
    unfold create_product_index at h2
    have hlen : 200 < cat201.length := by
      simp [cat201]
    rw [if_pos hlen] at h2
    have htake : cat201.take 200 = (List.range 200).map mkCatProduct := by
      rw [cat201, ← List.map_take]
      congr 1
    rw [htake, List.map_map] at h2
    have hfin : r.article_id = "200" := by rw [hr2, hra]
    rw [hfin] at h2
    revert h2
    decide

/-- C4 (amended): for every input, the Revenue Ranker output has size at most
`target`, and every selected id is in the catalog and has at least one matching
transaction. (Summed revenue need not be positive; see the counterexample.) -/
theorem C4_rank_guarantees (batches : List (List Txn)) (products : List Product)
    (target quota : ℕ) :
    (rank batches products target quota).length ≤ target ∧
    ∀ a ∈ rank batches products target quota,
      a ∈ products.map (·.article_id) ∧ a ∈ batches.flatten.map (·.article_id) := by
  constructor
  · unfold rank
    exact List.length_take_le _ _
  · intro a ha
    rcases mem_rank ha with ⟨x, hx, hxa⟩
    rcases mem_productsWithRevenue hx with ⟨hp, hid⟩
    refine ⟨List.mem_map.mpr ⟨x.product, hp, hxa⟩, ?_⟩
    rw [← hxa]
    unfold txnIds at hid
    exact List.mem_dedup.mp hid

/-- A catalog product for the zero-price counterexample. -/
def cxProduct : Product :=
  { article_id := "1", prod_name := "n", product_type_name := "t",
    product_group_name := "g", colour_group_name := "c", department_name := "d" }

/-- A single batch holding a single zero-price transaction. -/
def cxBatches : List (List Txn) := [[{ article_id := "1", t_dat := 0, price := 0 }]]

/-- C4 counterexample: a product whose only transaction has price 0.00 is selected
even though its summed revenue is 0, not positive. -/
theorem C4_counterexample_zero_price :
    rank cxBatches [cxProduct] 150 10 = ["1"] ∧
    productRevenue cxBatches "1" = 0 := by
  have hrev : productRevenue cxBatches "1" = 0 := by
    simp [productRevenue, cxBatches]
  refine ⟨?_, hrev⟩
  simp [rank, topUp, quotaSel, catKeys, categoryTop, productsWithRevenue, txnIds,
    cxBatches, cxProduct, List.insertionSort, List.orderedInsert]

/-- C5: whenever the per-category quota union is smaller than `target`, the
top-up step makes the final selection size exactly
`min target (number of candidates)` — candidates being the catalog products with
at least one transaction. -/
theorem C5_topup_reaches_min (batches : List (List Txn)) (products : List Product)
    (target quota : ℕ)
    (hnd : (products.map (·.article_id)).Nodup)
    (hlt : (quotaSel quota (productsWithRevenue products batches)).length < target) :
    (rank batches products target quota).length
      = min target (productsWithRevenue products batches).length := by
  have hc : ((productsWithRevenue products batches).map (·.product.article_id)).Nodup :=
    candIds_nodup hnd
  exact topUp_take_length hc (quotaSel_nodup hc) quotaSel_subset hlt

/-- Witness for C5 at a concrete input (one candidate, quota union of size one). -/
theorem C5_witness :
    ((([cxProduct].map (·.article_id)).Nodup) ∧
      (quotaSel 10 (productsWithRevenue [cxProduct] cxBatches)).length < 150) ∧
    (rank cxBatches [cxProduct] 150 10).length
      = min 150 (productsWithRevenue [cxProduct] cxBatches).length := by
  have h1 : ([cxProduct].map (·.article_id)).Nodup := by decide
  have h2 : (quotaSel 10 (productsWithRevenue [cxProduct] cxBatches)).length < 150 := by
    simp [quotaSel, catKeys, categoryTop, productsWithRevenue, txnIds, cxBatches,
      cxProduct, List.insertionSort, List.orderedInsert]
  exact ⟨⟨h1, h2⟩, C5_topup_reaches_min cxBatches [cxProduct] 150 10 h1 h2⟩

/-- A catalog product for the tie-break counterexample. -/
def tieProduct (aid nm : String) : Product :=
  { article_id := aid, prod_name := nm, product_type_name := "t",
    product_group_name := "g", colour_group_name := "c", department_name := "d" }

/-- A candidate with the smaller article id among two revenue-tied candidates. -/
def candA : Cand := { product := tieProduct "0001" "a", revenue := 10 }

/-- A candidate with the larger article id and equal revenue. -/
def candB : Cand := { product := tieProduct "0002" "b", revenue := 10 }

/-- C6 counterexample: with two revenue-tied candidates in one category,
`nlargest` keeps the first row of the input order — it selects article 0002 when
that row comes first, while the spec's article-id-ascending tie-break selects
0001; the selection also changes when the input row order is swapped. -/
theorem C6_counterexample_tiebreak :
    categoryTop 1 [candB, candA] = [candB] ∧
    categoryTopSpecOrder 1 [candB, candA] = [candA] ∧
    categoryTop 1 [candB, candA] ≠ categoryTop 1 [candA, candB] := by
  have hBA : candOrd candB candA := by
    show candA.revenue ≤ candB.revenue
    norm_num [candA, candB]
  have hAB : candOrd candA candB := by
    show candB.revenue ≤ candA.revenue
    norm_num [candA, candB]
  have hSpecBA : ¬ specOrd candB candA := by
    unfold specOrd
    rintro (h | ⟨h1, h2⟩)
    · revert h
      norm_num [candA, candB]
    · revert h2
      show ¬ candB.product.article_id ≤ candA.product.article_id
      rw [String.le_iff_toList_le]
      decide
  have hSpecAB : specOrd candA candB := by
    unfold specOrd
    refine Or.inr ⟨by norm_num [candA, candB], ?_⟩
    show candA.product.article_id ≤ candB.product.article_id
    rw [String.le_iff_toList_le]
    decide
  have hSortCode : List.insertionSort candOrd [candB, candA] = [candB, candA] := by
    simp [List.insertionSort, List.orderedInsert, hBA]
  have hSortCode2 : List.insertionSort candOrd [candA, candB] = [candA, candB] := by
    simp [List.insertionSort, List.orderedInsert, hAB]
  have hSortSpec : List.insertionSort specOrd [candB, candA] = [candA, candB] := by
    simp [List.insertionSort, List.orderedInsert, hSpecBA]
  refine ⟨?_, ?_, ?_⟩
  · rw [categoryTop, hSortCode]
    rfl
  · rw [categoryTopSpecOrder, hSortSpec]
    rfl
  · rw [categoryTop, categoryTop, hSortCode, hSortCode2]
    decide

/-- C6 (amended): the per-category selection is the first `quota` entries of the
stable descending sort by revenue: revenue is sorted descending and revenue-tied
candidates keep their input (catalog) row order, so the selection is
deterministic given the catalog row order but does depend on that order. -/
theorem C6_category_top_stable (quota : ℕ) (g : List Cand) :
    ∃ s : List Cand,
      categoryTop quota g = s.take quota ∧
      List.Perm s g ∧
      s.Pairwise (fun a b => b.revenue ≤ a.revenue) ∧
      ∀ v : ℚ, s.filter (fun c => c.revenue = v) = g.filter (fun c => c.revenue = v) := by
  refine ⟨List.insertionSort candOrd g, rfl, List.perm_insertionSort candOrd g, ?_, ?_⟩
  · exact List.sorted_insertionSort candOrd g
  · intro v
    exact filter_insertionSort_rev v g

/-- C10: for a product with at least one sales row, `get_sales_history` returns
exactly the rows of that product dated within `days` of the product's own most
recent sale date, sorted ascending by date, with totals summed over exactly the
returned window. -/
theorem C10_sales_history_window (products : List Product) (sales : List SalesRow)
    (aid : String) (days : ℤ)
    (h : sales.filter (fun r => r.article_id = aid) ≠ []) :
    List.Perm ((get_sales_history products sales aid days).data)
        (((sales.filter (fun r => r.article_id = aid)).filter
            (fun r => maxDate (sales.filter (fun r => r.article_id = aid)) - days ≤ r.date)).map
          toPoint) ∧
    ((get_sales_history products sales aid days).data).Pairwise
        (fun a b => a.date ≤ b.date) ∧
    (get_sales_history products sales aid days).total_revenue
      = (((sales.filter (fun r => r.article_id = aid)).filter
            (fun r => maxDate (sales.filter (fun r => r.article_id = aid)) - days ≤ r.date)).map
          (·.total_revenue)).sum ∧
    (get_sales_history products sales aid days).total_units
      = (((sales.filter (fun r => r.article_id = aid)).filter
            (fun r => maxDate (sales.filter (fun r => r.article_id = aid)) - days ≤ r.date)).map
          (·.units_sold)).sum := by
  have hsales : sales ≠ [] := by
    intro hnil
    rw [hnil] at h
    exact h rfl
  have hs1 : sales.isEmpty = false := by
    rw [List.isEmpty_eq_false]
    exact hsales
  have hs2 : (sales.filter (fun r => r.article_id = aid)).isEmpty = false := by
    rw [List.isEmpty_eq_false]
    exact h
  have hval : get_sales_history products sales aid days
      = { article_id := aid
          product_name :=
            match get_product_by_id products aid with
            | some p => p.prod_name
            | none => "Unknown Product"
          data := (List.insertionSort dateOrd
            ((sales.filter (fun r => r.article_id = aid)).filter
              (fun r => maxDate (sales.filter (fun r => r.article_id = aid)) - days
                ≤ r.date))).map toPoint
          total_revenue := (((sales.filter (fun r => r.article_id = aid)).filter
            (fun r => maxDate (sales.filter (fun r => r.article_id = aid)) - days
              ≤ r.date)).map (·.total_revenue)).sum
          total_units := (((sales.filter (fun r => r.article_id = aid)).filter
            (fun r => maxDate (sales.filter (fun r => r.article_id = aid)) - days
              ≤ r.date)).map (·.units_sold)).sum } := by
    unfold get_sales_history
    rw [if_neg (by simp [hs1])]
    dsimp only
    rw [if_neg (by simp [hs2])]
  rw [hval]
  refine ⟨?_, ?_, rfl, rfl⟩
  · exact (List.perm_insertionSort dateOrd _).map toPoint
  · have hsorted := List.sorted_insertionSort dateOrd
      ((sales.filter (fun r => r.article_id = aid)).filter
        (fun r => maxDate (sales.filter (fun r => r.article_id = aid)) - days ≤ r.date))
    exact List.pairwise_map.mpr hsorted

/-- A small sales table for the C10 witness: two rows of article 0108775001 on
days 1 and 5 plus a row of another article. -/
def histSales : List SalesRow :=
  [ { article_id := "0108775001", date := 5, total_revenue := 10, avg_price := 10,
      units_sold := 1 },
    { article_id := "0108775001", date := 1, total_revenue := 7, avg_price := 7,
      units_sold := 1 },
    { article_id := "0999999999", date := 9, total_revenue := 1, avg_price := 1,
      units_sold := 1 } ]

/-- Witness for C10 at a concrete sales table and a 3-day window. -/
theorem C10_witness :
    (histSales.filter (fun r => r.article_id = "0108775001") ≠ []) ∧
    (List.Perm ((get_sales_history [] histSales "0108775001" 3).data)
        (((histSales.filter (fun r => r.article_id = "0108775001")).filter
            (fun r => maxDate (histSales.filter (fun r => r.article_id = "0108775001")) - 3
              ≤ r.date)).map toPoint) ∧
      ((get_sales_history [] histSales "0108775001" 3).data).Pairwise
          (fun a b => a.date ≤ b.date) ∧
      (get_sales_history [] histSales "0108775001" 3).total_revenue
        = (((histSales.filter (fun r => r.article_id = "0108775001")).filter
            (fun r => maxDate (histSales.filter (fun r => r.article_id = "0108775001")) - 3
              ≤ r.date)).map (·.total_revenue)).sum ∧
      (get_sales_history [] histSales "0108775001" 3).total_units
        = (((histSales.filter (fun r => r.article_id = "0108775001")).filter
            (fun r => maxDate (histSales.filter (fun r => r.article_id = "0108775001")) - 3
              ≤ r.date)).map (·.units_sold)).sum) :=
  ⟨by decide, C10_sales_history_window [] histSales "0108775001" 3 (by decide)⟩

end ShopSight
